import Mathlib

/-!
Shallow embedding of `src/functions.py`, a pandas-based table-cleaning
pipeline, together with proofs of the specification's claims about it.

A pandas `DataFrame` is modelled as a `Table`: a header of column names and a
list of rows of `Value` cells.  A cell is null (`NaN`/`None`), a text value, or
a numeric value; Python floats are modelled as rationals (`ℚ`), which is exact
for every value the pipeline manipulates.  Operations that can raise a Python
exception (`KeyError` on a missing column, `IndexError`/`TypeError` inside a
cell lambda, `ValueError` from `astype(float)`) return `Option Table`, with
`none` standing for the raised exception.
-/

namespace DataClean

attribute [local semireducible] Rat.add Rat.sub Rat.mul Rat.inv
attribute [local semireducible] Rat.ofScientific

/-- A cell of the table: null (pandas `NaN`), text, or numeric. -/
inductive Value : Type where
  | null : Value
  | str : String → Value
  | num : ℚ → Value
deriving DecidableEq, Repr

/-- Is the cell null?  Models `pd.isnull` on a cell. -/
def Value.isNull : Value → Bool
  | .null => true
  | _ => false

/-- Is the cell a text value? -/
def Value.isText : Value → Bool
  | .str _ => true
  | _ => false

/-- Is the cell null or a nonempty text value?  These are exactly the
cells on which the gender lambda does not raise. -/
def Value.genderSafe : Value → Bool
  | .null => true
  | .str s => !s.toList.isEmpty
  | .num _ => false

/-- A pandas `DataFrame`: named columns over a list of rows.
Column names are looked up by first match, as pandas does for a
well-formed (duplicate-free) header. -/
structure Table : Type where
  header : List String
  rows : List (List Value)
deriving DecidableEq, Repr

/-- Index of the first column with the given name, `none` when the
name is absent (pandas raises `KeyError` then). -/
def colIdx (c : String) : List String → Option Nat
  | [] => none
  | h :: hs => if h = c then some 0 else (colIdx c hs).map (· + 1)

/-- Apply a fallible cell transformation to the cell at position `i` of a
row.  A row without an `i`-th cell is returned unchanged. -/
def updateRow (i : Nat) (f : Value → Option Value) (row : List Value) :
    Option (List Value) :=
  match row[i]? with
  | none => some row
  | some v =>
    match f v with
    | none => none
    | some w => some (row.set i w)

/-- Apply `updateRow` to every row, failing if any cell transformation
fails (a raised exception aborts the whole `Series.apply`). -/
def updateRows (i : Nat) (f : Value → Option Value) :
    List (List Value) → Option (List (List Value))
  | [] => some []
  | r :: rs =>
    match updateRow i f r, updateRows i f rs with
    | some r2, some rs2 => some (r2 :: rs2)
    | _, _ => none

/-- `df2[column] = df2[column].apply(f)` / `.replace(...)`: transform one
named column cell-wise, `none` when the column is absent (`KeyError`). -/
def applyCol (f : Value → Option Value) (c : String) (t : Table) :
    Option Table :=
  match colIdx c t.header with
  | none => none
  | some i =>
    match updateRows i f t.rows with
    | none => none
    | some rs => some ⟨t.header, rs⟩

/-- `Series.replace(dict)` on one cell: exact-match lookup of text values in
a fixed string-to-string mapping; everything else (nulls, numbers,
unmapped text) passes through unchanged. -/
def replaceCell (m : List (String × String)) : Value → Value
  | .str s => .str ((m.lookup s).getD s)
  | v => v

/-- `clean_col_name` on a single name: lower-case, then replace spaces
with underscores, then rename the literal `st` to `state`.  Python
`str.lower` is modelled character-wise by `Char.toLower`, and replacing
the one-character string `" "` with `"_"` is exactly a character map. -/
def normalizeName (s : String) : String :=
  let lowered := s.toList.map Char.toLower
  let s2 := String.mk (lowered.map (fun ch => if ch = ' ' then '_' else ch))
  if s2 = "st" then "state" else s2

/-- `clean_col_name`: normalize every column name; rows untouched. -/
def clean_col_name (t : Table) : Table :=
  ⟨t.header.map normalizeName, t.rows⟩

/-- The cell lambda of `clean_gender`:
`x[0].upper() if pd.notnull(x) and x[0].upper() in ['M','F'] else "D"`.
On null the conjunction short-circuits to `"D"`; on the empty string
`x[0]` raises `IndexError` (`none`); on a number `x[0]` raises
`TypeError` (`none`).  `Char.toUpper` models `str.upper` on the first
character (they agree on whether the result is `M` or `F`). -/
def genderCell : Value → Option Value
  | .null => some (.str "D")
  | .str s =>
    match s.toList with
    | [] => none
    | ch :: _ =>
      some (.str (if ch.toUpper = 'M' ∨ ch.toUpper = 'F'
                  then ch.toUpper.toString else "D"))
  | .num _ => none

/-- `clean_gender(df, column='gender')`. -/
def clean_gender (t : Table) (column : String) : Option Table :=
  applyCol genderCell column t

/-- The fixed mapping `state_dict` of `clean_state`. -/
def state_dict : List (String × String) :=
  [("AZ", "Arizona"), ("Cali", "California"), ("WA", "Washington")]

/-- `clean_state(df, column='state')`: `replace(state_dict)`. -/
def clean_state (t : Table) (column : String) : Option Table :=
  applyCol (fun v => some (replaceCell state_dict v)) column t

/-- `clean_education(df, column='education')`: `replace({'Bachelors':'Bachelor'})`. -/
def clean_education (t : Table) (column : String) : Option Table :=
  applyCol (fun v => some (replaceCell [("Bachelors", "Bachelor")] v)) column t

/-- Removing every `%` character: Python `x.replace('%','')` for the
one-character pattern `%` and empty replacement is exactly filtering
the `%` characters out. -/
def stripPercent (s : String) : String :=
  String.mk (s.toList.filter (fun ch => ch != '%'))

/-- The cell lambda of `clean_clv`:
`x.replace('%','') if pd.notnull(x) else x`.  Nulls pass through; text
loses every `%` (Python `str.replace` replaces all occurrences); on a
number `x.replace` raises `AttributeError`. -/
def clvCell : Value → Option Value
  | .null => some .null
  | .str s => some (.str (stripPercent s))
  | .num _ => none

/-- `clean_clv(df, column='customer_lifetime_value')`. -/
def clean_clv (t : Table) (column : String) : Option Table :=
  applyCol clvCell column t

/-- The fixed mapping `car_classes_dict` of `clean_car_class`. -/
def car_classes_dict : List (String × String) :=
  [("Sports Car", "Luxury"), ("Luxury SUV", "Luxury"), ("Luxury Car", "Luxury")]

/-- `clean_car_class(df, column='vehicle_class')`: `replace(car_classes_dict)`. -/
def clean_car_class (t : Table) (column : String) : Option Table :=
  applyCol (fun v => some (replaceCell car_classes_dict v)) column t

/-- Python `s.split("/")`: split on every `/`; the empty string splits
to `[""]`, and a string with no `/` is a single segment. -/
def splitSlash : List Char → List String
  | [] => [""]
  | c :: cs =>
    if c = '/' then "" :: splitSlash cs
    else
      match splitSlash cs with
      | [] => [String.mk [c]]
      | h :: tl => String.mk (c :: h.toList) :: tl

/-- One cell of `df2[column].str.split(pat="/").str[1]`, assuming the
column passed the `.str` accessor's dtype validation (see
`split_keep_middle`).  Inside such a column the accessor yields `NaN`
for a null or numeric element; on a string it splits on every `/` and
`.str[1]` keeps index 1, `NaN` when the split has fewer than two
segments. -/
def splitCell : Value → Option Value
  | .null => some .null
  | .num _ => some .null
  | .str s =>
    some (match (splitSlash s.toList)[1]? with
          | some seg => .str seg
          | none => .null)

/-- The values of column `i`, one per row (pandas rows are never ragged;
a missing cell reads as null). -/
def colValues (i : Nat) (rows : List (List Value)) : List Value :=
  rows.map (fun r => (r[i]?).getD Value.null)

/-- `split_keep_middle(df, column='number_of_open_complaints')`.
The pandas `.str` accessor first validates the column's inferred dtype
(`string`, `empty`, `mixed`, `mixed-integer` are accepted): it works
when the column is entirely null (`empty`) or contains at least one
text cell (`string`/`mixed`), and raises
`AttributeError: Can only use .str accessor with string values!` when
the non-null cells are all numeric. -/
def split_keep_middle (t : Table) (column : String) : Option Table :=
  match colIdx column t.header with
  | none => none
  | some i =>
    if (colValues i t.rows).all Value.isNull
        || (colValues i t.rows).any Value.isText then
      applyCol splitCell column t
    else none

/-- `drop_null_rows`: `dropna(axis=0, how='all')` keeps exactly the rows
with at least one non-null cell. -/
def drop_null_rows (t : Table) : Table :=
  ⟨t.header, t.rows.filter (fun r => !(r.all Value.isNull))⟩

/-- Model of Python `float(s)` on the decimal literals the data contains:
optional sign, then digits with an optional fractional part (at least
one digit overall).  Anything else fails (`ValueError`). -/
def parseFloat (s : String) : Option ℚ :=
  let signed : ℚ × List Char :=
    match s.toList with
    | '-' :: rest => (-1, rest)
    | '+' :: rest => (1, rest)
    | l => (1, l)
  let ip := signed.2.takeWhile Char.isDigit
  let rest := signed.2.dropWhile Char.isDigit
  let ipVal : ℚ := ip.foldl (fun acc ch => acc * 10 + (ch.toNat - 48 : ℕ)) 0
  match rest with
  | [] => if ip.isEmpty then none else some (signed.1 * ipVal)
  | '.' :: frac =>
    if frac.all Char.isDigit && (!ip.isEmpty || !frac.isEmpty) then
      let fVal : ℚ := frac.foldl (fun acc ch => acc * 10 + (ch.toNat - 48 : ℕ)) 0
      some (signed.1 * (ipVal + fVal / (10 : ℚ) ^ frac.length))
    else none
  | _ => none

/-- One cell of `astype(float)`: null stays null (`NaN` is a float),
numbers are already floats, text must parse as a float.  The outer
`none` is the raised `ValueError`; the inner `Option` is nullability. -/
def Value.toFloat : Value → Option (Option ℚ)
  | .null => some none
  | .num q => some (some q)
  | .str s => (parseFloat s).map some

/-- `astype(float)` over a whole column. -/
def toFloats : List Value → Option (List (Option ℚ))
  | [] => some []
  | v :: vs =>
    match v.toFloat, toFloats vs with
    | some q, some qs => some (q :: qs)
    | _, _ => none

/-- Write the given values back into column `i`, row by row. -/
def setColumn (i : Nat) (rows : List (List Value)) (vals : List Value) :
    List (List Value) :=
  List.zipWith (fun r v => r.set i v) rows vals

/-- `Series.mean()`: the arithmetic mean of the non-null values, `none`
(pandas `NaN`) when there is no non-null value. -/
def meanOf (floats : List (Option ℚ)) : Option ℚ :=
  let nonNull := floats.filterMap id
  if nonNull.length = 0 then none
  else some (nonNull.sum / (nonNull.length : ℚ))

/-- One cell of `fillna(mean)`: non-null values stay, nulls become the
mean; when the mean itself is `NaN` (all-null column) the null stays. -/
def fillCell (mean : Option ℚ) (q : Option ℚ) : Value :=
  match q, mean with
  | some x, _ => Value.num x
  | none, some m => Value.num m
  | none, none => Value.null

/-- `fill_with_mean(df, column='customer_lifetime_value')`:
`astype(float)` on the column (a `ValueError` on unparsable text is
`none`), then `fillna` with the column mean. -/
def fill_with_mean (t : Table) (column : String) : Option Table :=
  match colIdx column t.header with
  | none => none
  | some i =>
    match toFloats (colValues i t.rows) with
    | none => none
    | some floats =>
      some ⟨t.header, setColumn i t.rows (floats.map (fillCell (meanOf floats)))⟩

/-- Model of Python `int(s)` as used by `astype(int)` on text cells:
optional sign then digits only. -/
def parseIntStr (s : String) : Option ℤ :=
  let signed : ℤ × List Char :=
    match s.toList with
    | '-' :: rest => (-1, rest)
    | '+' :: rest => (1, rest)
    | l => (1, l)
  if signed.2.isEmpty || !signed.2.all Char.isDigit then none
  else some (signed.1 * (signed.2.foldl (fun acc ch => acc * 10 + (ch.toNat - 48 : ℕ)) 0 : ℕ))

/-- One cell of `astype(int)`: floats truncate toward zero, which is
`Int.div` (Python `int(-3.5) = -3`); text must be a plain integer
literal, null raises. -/
def intCell : Value → Option Value
  | .null => none
  | .num q => some (.num (Int.tdiv q.num (q.den : ℤ) : ℤ))
  | .str s => (parseIntStr s).map (fun n => .num (n : ℚ))

/-- The fixed column list `num_var` of `num_to_int`. -/
def num_var : List String :=
  ["customer_lifetime_value", "income", "monthly_premium_auto",
   "number_of_open_complaints", "total_claim_amount"]

/-- `num_to_int`: cast the five fixed numeric columns to integers, in the
order listed; `df2[num_var]` raises if any of them is absent. -/
def num_to_int (t : Table) : Option Table :=
  num_var.foldlM (fun u c => applyCol intCell c u) t

/-- `clean_dataframe(df, column=str)`: the pipeline runner.  The `column`
parameter is never used; each step runs with its default column, raised
exceptions (modelled by `none`) propagate to the caller. -/
def clean_dataframe (df : Table) (_column : String) : Option Table :=
  match clean_gender (drop_null_rows (clean_col_name df)) "gender" with
  | none => none
  | some df2 =>
    match clean_state df2 "state" with
    | none => none
    | some df2 =>
      match clean_education df2 "education" with
      | none => none
      | some df2 =>
        match clean_clv df2 "customer_lifetime_value" with
        | none => none
        | some df2 =>
          match split_keep_middle df2 "number_of_open_complaints" with
          | none => none
          | some df2 => fill_with_mean df2 "customer_lifetime_value"

/-- Modelled from the spec, section 4.8: the Pipeline Runner is the
sequential composition Column Name Normalizer → Null-Row Dropper →
Gender Cleaner → State Cleaner → Education Cleaner → Lifetime Value
Cleaner → Complaints Splitter → Mean Imputer, each with its default
column, with any step's error propagating to the caller. -/
def pipelineSpec (df : Table) : Option Table :=
  (clean_gender (drop_null_rows (clean_col_name df)) "gender").bind
    (fun u => (clean_state u "state").bind
      (fun u => (clean_education u "education").bind
        (fun u => (clean_clv u "customer_lifetime_value").bind
          (fun u => (split_keep_middle u "number_of_open_complaints").bind
            (fun u => fill_with_mean u "customer_lifetime_value")))))

/-- The cell of row `k`, column position `i` of a table. -/
def cell (t : Table) (k i : Nat) : Option Value :=
  (t.rows[k]?).bind (fun r => r[i]?)

/-- A one-row raw example table exercising every default pipeline column. -/
def exPipeline : Table :=
  ⟨["GENDER", "ST", "Education", "Customer Lifetime Value",
    "Number of Open Complaints", "Vehicle Class"],
   [[.str "F", .str "AZ", .str "Bachelors", .str "10%", .str "1/2/00",
     .str "Sports Car"]]⟩

/-- The pipeline's output on `exPipeline`. -/
def exPipelineOut : Table :=
  ⟨["gender", "state", "education", "customer_lifetime_value",
    "number_of_open_complaints", "vehicle_class"],
   [[.str "F", .str "Arizona", .str "Bachelor", .num 10, .str "2",
     .str "Sports Car"]]⟩

/-- An example table whose lifetime-value column is entirely null. -/
def exAllNull : Table :=
  ⟨["customer_lifetime_value"], [[Value.null], [Value.null]]⟩

/-- An example table whose gender column holds an empty string. -/
def exEmptyGender : Table := ⟨["gender"], [[Value.str ""]]⟩

/-- An example table with a mix of gender values. -/
def exGender : Table :=
  ⟨["gender"], [[Value.str "female"], [Value.null], [Value.str "Male"]]⟩

/-- An example table for the mean imputer: values 10 and 20 with a null. -/
def exMean : Table :=
  ⟨["customer_lifetime_value"], [[.str "10"], [.null], [.num 20]]⟩

/-- An example table for the complaints splitter. -/
def exSplit : Table :=
  ⟨["number_of_open_complaints"],
   [[.str "1/5/00"], [.str "3/10/05"], [.str "7"], [.null]]⟩

/-- A complaints column holding a number and a null but no text: the
`.str` accessor refuses such a column. -/
def exNumSplit : Table :=
  ⟨["number_of_open_complaints"], [[.num 3], [.null]]⟩

/-- An example table for the lifetime-value cleaner. -/
def exClv : Table :=
  ⟨["customer_lifetime_value"], [[.str "15.5%"], [.null]]⟩

/-- An example table for the state cleaner with an unmapped value. -/
def exState : Table := ⟨["state"], [[.str "Oregon"], [.null]]⟩

/-- An example table for the education cleaner, with a side column. -/
def exEdu : Table :=
  ⟨["education", "income"], [[.str "Bachelors", .num 3], [.null, .str "x"]]⟩

/-! ### List helper lemmas -/

lemma getq_set (a : α) : ∀ (l : List α) (i j : Nat),
    (l.set i a)[j]? = if j = i ∧ i < l.length then some a else l[j]? := by
  intro l
  induction l with
  | nil => intro i j; simp
  | cons x xs ih =>
    intro i j
    cases i with
    | zero => cases j <;> simp
    | succ n =>
      cases j with
      | zero => simp
      | succ m =>
        simp only [List.set, List.getElem?_cons_succ, ih n m, List.length_cons]
        by_cases hmn : m = n
        · subst hmn
          by_cases hlt : m < xs.length
          · simp [hlt, Nat.succ_lt_succ hlt]
          · simp [hlt, fun h => hlt (Nat.lt_of_succ_lt_succ h)]
        · simp [hmn, fun h => hmn (Nat.succ_injective h)]

lemma ltLengthOfGet : ∀ (l : List α) (i : Nat) (a : α),
    l[i]? = some a → i < l.length := by
  intro l
  induction l with
  | nil => intro i a h; simp at h
  | cons x xs ih =>
    intro i a h
    cases i with
    | zero => simp
    | succ n =>
      simp only [List.getElem?_cons_succ] at h
      exact Nat.succ_lt_succ (ih n a h)

lemma getqSomeOfLt : ∀ (l : List α) (k : Nat), k < l.length →
    ∃ a, l[k]? = some a := by
  intro l
  induction l with
  | nil => intro k h; simp at h
  | cons x xs ih =>
    intro k h
    cases k with
    | zero => exact ⟨x, by simp⟩
    | succ n => simpa using ih n (Nat.lt_of_succ_lt_succ h)

lemma getqNoneOfLe : ∀ (l : List α) (i : Nat), l.length ≤ i → l[i]? = none := by
  intro l
  induction l with
  | nil => intro i _; simp
  | cons x xs ih =>
    intro i h
    cases i with
    | zero => simp at h
    | succ n =>
      simp only [List.getElem?_cons_succ]
      exact ih n (Nat.le_of_succ_le_succ h)

lemma set_self : ∀ (l : List α) (i : Nat) (a : α),
    l[i]? = some a → l.set i a = l := by
  intro l
  induction l with
  | nil => intro i a h; simp at h
  | cons x xs ih =>
    intro i a h
    cases i with
    | zero => simp_all
    | succ n =>
      simp only [List.getElem?_cons_succ] at h
      simp [List.set, ih n a h]

lemma getq_map (f : α → β) : ∀ (l : List α) (k : Nat),
    (l.map f)[k]? = (l[k]?).map f := by
  intro l
  induction l with
  | nil => intro k; simp
  | cons x xs ih =>
    intro k
    cases k with
    | zero => simp
    | succ n => simp [ih n]

lemma zipWith_get (g : α → β → γ) : ∀ (as : List α) (bs : List β) (k : Nat)
    (a : α) (b : β), as[k]? = some a → bs[k]? = some b →
    (List.zipWith g as bs)[k]? = some (g a b) := by
  intro as
  induction as with
  | nil => intro bs k a b h; simp at h
  | cons x xs ih =>
    intro bs k a b h1 h2
    cases bs with
    | nil => simp at h2
    | cons y ys =>
      cases k with
      | zero => simp_all
      | succ n =>
        simp only [List.getElem?_cons_succ] at h1 h2
        simpa using ih ys n a b h1 h2

lemma zipWith_get_rev (g : α → β → γ) : ∀ (as : List α) (bs : List β)
    (k : Nat) (x : γ), (List.zipWith g as bs)[k]? = some x →
    ∃ a b, as[k]? = some a ∧ bs[k]? = some b ∧ x = g a b := by
  intro as
  induction as with
  | nil => intro bs k x h; simp at h
  | cons a0 xs ih =>
    intro bs k x h
    cases bs with
    | nil => simp at h
    | cons y ys =>
      cases k with
      | zero =>
        refine ⟨a0, y, by simp, by simp, ?_⟩
        simp at h
        exact h.symm
      | succ n =>
        simp only [List.zipWith_cons_cons, List.getElem?_cons_succ] at h
        obtain ⟨a, b, h1, h2, h3⟩ := ih ys n x h
        exact ⟨a, b, by simpa using h1, by simpa using h2, h3⟩

/-! ### `colIdx` lemmas -/

lemma colIdx_none_iff (c : String) : ∀ l : List String,
    colIdx c l = none ↔ c ∉ l := by
  intro l
  induction l with
  | nil => simp [colIdx]
  | cons h hs ih =>
    rw [colIdx]
    by_cases hc : h = c
    · rw [if_pos hc]
      subst hc
      simp
    · rw [if_neg hc]
      constructor
      · intro hn hm
        rcases List.mem_cons.mp hm with h1 | h1
        · exact hc h1.symm
        · cases hcol : colIdx c hs with
          | none => exact (ih.mp hcol) h1
          | some j => rw [hcol] at hn; simp at hn
      · intro hn
        cases hcol : colIdx c hs with
        | none => simp
        | some j =>
          exact absurd (List.mem_cons_of_mem h
            (by by_contra hx; rw [ih.mpr hx] at hcol; cases hcol)) hn

lemma colIdx_get (c : String) : ∀ (l : List String) (i : Nat),
    colIdx c l = some i → l[i]? = some c := by
  intro l
  induction l with
  | nil => intro i h; simp [colIdx] at h
  | cons h hs ih =>
    intro i hi
    rw [colIdx] at hi
    by_cases hc : h = c
    · rw [if_pos hc] at hi
      cases hi
      subst hc
      simp
    · rw [if_neg hc] at hi
      cases hcol : colIdx c hs with
      | none => rw [hcol] at hi; cases hi
      | some j =>
        rw [hcol] at hi
        simp only [Option.map] at hi
        cases hi
        simpa using ih j hcol

/-! ### `updateRow` lemmas -/

lemma updateRow_elim {i : Nat} {f : Value → Option Value}
    {r r2 : List Value} (h : updateRow i f r = some r2) :
    (r[i]? = none ∧ r2 = r) ∨
      ∃ v w, r[i]? = some v ∧ f v = some w ∧ r2 = r.set i w := by
  rw [updateRow] at h
  cases hv : r[i]? with
  | none =>
    rw [hv] at h; dsimp only at h; cases h
    exact Or.inl ⟨rfl, rfl⟩
  | some v =>
    rw [hv] at h
    dsimp only at h
    cases hf : f v with
    | none => rw [hf] at h; dsimp only at h; cases h
    | some w =>
      rw [hf] at h; dsimp only at h; cases h
      exact Or.inr ⟨v, w, rfl, hf, rfl⟩

lemma updateRow_intro (i : Nat) (f : Value → Option Value) (r : List Value)
    (v w : Value) (hv : r[i]? = some v) (hw : f v = some w) :
    updateRow i f r = some (r.set i w) := by
  rw [updateRow, hv]
  dsimp only
  rw [hw]

lemma updateRow_length {i : Nat} {f : Value → Option Value}
    {r r2 : List Value} (h : updateRow i f r = some r2) :
    r2.length = r.length := by
  rcases updateRow_elim h with ⟨_, rfl⟩ | ⟨v, w, _, _, rfl⟩
  · rfl
  · exact List.length_set ..

lemma updateRow_cell_ne {i : Nat} {f : Value → Option Value}
    {r r2 : List Value} (h : updateRow i f r = some r2) (j : Nat)
    (hj : j ≠ i) : r2[j]? = r[j]? := by
  rcases updateRow_elim h with ⟨_, rfl⟩ | ⟨v, w, _, _, rfl⟩
  · rfl
  · rw [getq_set]; simp [hj]

lemma updateRow_cell {i : Nat} {f : Value → Option Value}
    {r r2 : List Value} (h : updateRow i f r = some r2) (v : Value)
    (hv : r[i]? = some v) : ∃ w, f v = some w ∧ r2[i]? = some w := by
  rcases updateRow_elim h with ⟨hn, rfl⟩ | ⟨v2, w, hv2, hw, rfl⟩
  · rw [hv] at hn; cases hn
  · rw [hv] at hv2; cases hv2
    refine ⟨w, hw, ?_⟩
    rw [getq_set]
    simp [ltLengthOfGet r i v hv]

lemma updateRow_some {i : Nat} {f : Value → Option Value} {r : List Value}
    (h : ∀ v, r[i]? = some v → (f v).isSome) :
    ∃ r2, updateRow i f r = some r2 := by
  cases hv : r[i]? with
  | none => exact ⟨r, by rw [updateRow, hv]⟩
  | some v =>
    obtain ⟨w, hw⟩ := Option.isSome_iff_exists.mp (h v hv)
    exact ⟨r.set i w, updateRow_intro i f r v w hv hw⟩

lemma updateRow_idem {i : Nat} {f : Value → Option Value}
    (hf : ∀ v w, f v = some w → f w = some w) {r r2 : List Value}
    (h : updateRow i f r = some r2) : updateRow i f r2 = some r2 := by
  rcases updateRow_elim h with ⟨hn, rfl⟩ | ⟨v, w, hv, hw, rfl⟩
  · rw [updateRow, hn]
  · have hgw : (r.set i w)[i]? = some w := by
      rw [getq_set]; simp [ltLengthOfGet r i v hv]
    rw [updateRow, hgw]
    dsimp only
    rw [hf v w hw]
    dsimp only
    rw [set_self _ _ _ hgw]

/-! ### `updateRows` lemmas -/

lemma updateRows_length {i : Nat} {f : Value → Option Value} :
    ∀ {rs rs2 : List (List Value)}, updateRows i f rs = some rs2 →
    rs2.length = rs.length := by
  intro rs
  induction rs with
  | nil => intro rs2 h; cases h; rfl
  | cons r rest ih =>
    intro rs2 h
    rw [updateRows] at h
    cases h1 : updateRow i f r with
    | none => rw [h1] at h; cases h
    | some r2 =>
      cases h2 : updateRows i f rest with
      | none => rw [h1, h2] at h; cases h
      | some rest2 =>
        rw [h1, h2] at h; cases h
        simp [ih h2]

lemma updateRows_row {i : Nat} {f : Value → Option Value} :
    ∀ {rs rs2 : List (List Value)}, updateRows i f rs = some rs2 →
    ∀ (k : Nat) (r : List Value), rs[k]? = some r →
    ∃ r2, rs2[k]? = some r2 ∧ updateRow i f r = some r2 := by
  intro rs
  induction rs with
  | nil => intro rs2 h k r hk; simp at hk
  | cons r0 rest ih =>
    intro rs2 h k r hk
    rw [updateRows] at h
    cases h1 : updateRow i f r0 with
    | none => rw [h1] at h; cases h
    | some r02 =>
      cases h2 : updateRows i f rest with
      | none => rw [h1, h2] at h; cases h
      | some rest2 =>
        rw [h1, h2] at h; cases h
        cases k with
        | zero =>
          simp at hk; subst hk
          exact ⟨r02, by simp, h1⟩
        | succ n =>
          simp only [List.getElem?_cons_succ] at hk ⊢
          exact ih h2 n r hk

lemma updateRows_some {i : Nat} {f : Value → Option Value} :
    ∀ {rs : List (List Value)},
    (∀ r ∈ rs, ∀ v, r[i]? = some v → (f v).isSome) →
    ∃ rs2, updateRows i f rs = some rs2 := by
  intro rs
  induction rs with
  | nil => intro _; exact ⟨[], rfl⟩
  | cons r rest ih =>
    intro h
    obtain ⟨r2, hr2⟩ := updateRow_some (h r (by simp))
    obtain ⟨rest2, hrest2⟩ := ih (fun r hr v hv => h r (by simp [hr]) v hv)
    exact ⟨r2 :: rest2, by rw [updateRows, hr2, hrest2]⟩

lemma updateRows_idem {i : Nat} {f : Value → Option Value}
    (hf : ∀ v w, f v = some w → f w = some w) :
    ∀ {rs rs2 : List (List Value)}, updateRows i f rs = some rs2 →
    updateRows i f rs2 = some rs2 := by
  intro rs
  induction rs with
  | nil => intro rs2 h; cases h; rfl
  | cons r rest ih =>
    intro rs2 h
    rw [updateRows] at h
    cases h1 : updateRow i f r with
    | none => rw [h1] at h; cases h
    | some r2 =>
      cases h2 : updateRows i f rest with
      | none => rw [h1, h2] at h; cases h
      | some rest2 =>
        rw [h1, h2] at h; cases h
        rw [updateRows, updateRow_idem hf h1, ih h2]

/-! ### `applyCol` lemmas -/

lemma applyCol_none {f : Value → Option Value} {c : String} {t : Table}
    (h : c ∉ t.header) : applyCol f c t = none := by
  rw [applyCol, (colIdx_none_iff c t.header).mpr h]

lemma applyCol_elim {f : Value → Option Value} {c : String} {t t2 : Table}
    (h : applyCol f c t = some t2) :
    ∃ i, colIdx c t.header = some i ∧ t2.header = t.header ∧
      updateRows i f t.rows = some t2.rows := by
  rw [applyCol] at h
  cases hc : colIdx c t.header with
  | none => rw [hc] at h; dsimp only at h; cases h
  | some i =>
    rw [hc] at h
    dsimp only at h
    cases hu : updateRows i f t.rows with
    | none => rw [hu] at h; dsimp only at h; cases h
    | some rs => rw [hu] at h; dsimp only at h; cases h; exact ⟨i, rfl, rfl, hu⟩

lemma applyCol_header {f : Value → Option Value} {c : String} {t t2 : Table}
    (h : applyCol f c t = some t2) : t2.header = t.header :=
  (applyCol_elim h).choose_spec.2.1

lemma applyCol_rowcount {f : Value → Option Value} {c : String} {t t2 : Table}
    (h : applyCol f c t = some t2) : t2.rows.length = t.rows.length := by
  obtain ⟨i, _, _, hu⟩ := applyCol_elim h
  exact updateRows_length hu

lemma applyCol_frame {f : Value → Option Value} {c : String} {t t2 : Table}
    (h : applyCol f c t = some t2) (j : Nat)
    (hj : t.header[j]? ≠ some c) (k : Nat) : cell t2 k j = cell t k j := by
  obtain ⟨i, hc, _, hu⟩ := applyCol_elim h
  have hji : j ≠ i := fun e => hj (e ▸ colIdx_get c t.header i hc)
  rw [cell, cell]
  cases hk : t.rows[k]? with
  | none =>
    have hle : t.rows.length ≤ k := by
      by_contra hx
      obtain ⟨a, ha⟩ := getqSomeOfLt t.rows k (Nat.lt_of_not_le hx)
      rw [ha] at hk; cases hk
    have h2 : t2.rows[k]? = none :=
      getqNoneOfLe _ _ (by rw [updateRows_length hu]; exact hle)
    rw [h2]
  | some r =>
    obtain ⟨r2, hr2, hrow⟩ := updateRows_row hu k r hk
    rw [hr2]
    simp [updateRow_cell_ne hrow j hji]

lemma applyCol_cellTarget {f : Value → Option Value} {c : String}
    {t t2 : Table} {i : Nat} (h : applyCol f c t = some t2)
    (hc : colIdx c t.header = some i) (k : Nat) (v : Value)
    (hv : cell t k i = some v) :
    ∃ w, f v = some w ∧ cell t2 k i = some w := by
  obtain ⟨i2, hc2, _, hu⟩ := applyCol_elim h
  rw [hc] at hc2; cases hc2
  rw [cell] at hv
  cases hk : t.rows[k]? with
  | none => rw [hk] at hv; cases hv
  | some r =>
    rw [hk] at hv
    simp only [Option.bind] at hv
    obtain ⟨r2, hr2, hrow⟩ := updateRows_row hu k r hk
    obtain ⟨w, hw, hw2⟩ := updateRow_cell hrow v hv
    exact ⟨w, hw, by rw [cell, hr2]; simpa using hw2⟩

lemma applyCol_some {f : Value → Option Value} {c : String} {t : Table}
    {i : Nat} (hc : colIdx c t.header = some i)
    (h : ∀ r ∈ t.rows, ∀ v, r[i]? = some v → (f v).isSome) :
    ∃ t2, applyCol f c t = some t2 := by
  obtain ⟨rs2, hrs2⟩ := updateRows_some h
  refine ⟨⟨t.header, rs2⟩, ?_⟩
  rw [applyCol, hc]
  dsimp only
  rw [hrs2]

lemma applyCol_idem {f : Value → Option Value}
    (hf : ∀ v w, f v = some w → f w = some w) {c : String} {t t2 : Table}
    (h : applyCol f c t = some t2) : applyCol f c t2 = some t2 := by
  obtain ⟨i, hc, hh, hu⟩ := applyCol_elim h
  rw [applyCol, hh, hc]
  dsimp only
  rw [updateRows_idem hf hu]
  dsimp only
  rw [← hh]

lemma split_elim {t t2 : Table} {c : String}
    (h : split_keep_middle t c = some t2) :
    applyCol splitCell c t = some t2 := by
  rw [split_keep_middle] at h
  cases hc : colIdx c t.header with
  | none => rw [hc] at h; dsimp only at h; cases h
  | some i =>
    rw [hc] at h
    dsimp only at h
    by_cases hok : ((colValues i t.rows).all Value.isNull
        || (colValues i t.rows).any Value.isText) = true
    · rw [if_pos hok] at h
      exact h
    · rw [if_neg hok] at h
      cases h

lemma applyCol_cellTarget_rev {f : Value → Option Value} {c : String}
    {t t2 : Table} {i : Nat} (h : applyCol f c t = some t2)
    (hc : colIdx c t.header = some i) (k : Nat) (w : Value)
    (hw : cell t2 k i = some w) :
    ∃ v, cell t k i = some v ∧ f v = some w := by
  obtain ⟨i2, hc2, _, hu⟩ := applyCol_elim h
  rw [hc] at hc2; cases hc2
  rw [cell] at hw
  cases hk2 : t2.rows[k]? with
  | none => rw [hk2] at hw; cases hw
  | some r2 =>
    rw [hk2] at hw
    simp only [Option.bind] at hw
    have hklt : k < t.rows.length := by
      rw [← updateRows_length hu]
      exact ltLengthOfGet _ _ _ hk2
    obtain ⟨r, hk⟩ := getqSomeOfLt t.rows k hklt
    obtain ⟨r2b, hr2b, hrow⟩ := updateRows_row hu k r hk
    rw [hk2] at hr2b; cases hr2b
    rcases updateRow_elim hrow with ⟨hn, rfl⟩ | ⟨v, w2, hv, hfv, rfl⟩
    · rw [hn] at hw; cases hw
    · have : (r.set i w2)[i]? = some w2 := by
        rw [getq_set]; simp [ltLengthOfGet r i v hv]
      rw [this] at hw; cases hw
      exact ⟨v, by rw [cell, hk]; simpa using hv, hfv⟩

/-! ### more list helpers -/

lemma getq_mem : ∀ (l : List α) (k : Nat) (a : α), l[k]? = some a → a ∈ l := by
  intro l
  induction l with
  | nil => intro k a h; simp at h
  | cons x xs ih =>
    intro k a h
    cases k with
    | zero => simp at h; simp [h]
    | succ n =>
      simp only [List.getElem?_cons_succ] at h
      exact List.mem_cons_of_mem x (ih n a h)

lemma mem_getq : ∀ (l : List α) (a : α), a ∈ l → ∃ k : Nat, l[k]? = some a := by
  intro l
  induction l with
  | nil => intro a h; simp at h
  | cons x xs ih =>
    intro a h
    rcases List.mem_cons.mp h with rfl | h2
    · exact ⟨0, by simp⟩
    · obtain ⟨k, hk⟩ := ih a h2
      refine ⟨k + 1, ?_⟩
      simpa using hk

lemma set_oob : ∀ (l : List α) (i : Nat) (a : α), l[i]? = none → l.set i a = l := by
  intro l
  induction l with
  | nil => intro i a _; simp
  | cons x xs ih =>
    intro i a h
    cases i with
    | zero => simp at h
    | succ n =>
      simp only [List.getElem?_cons_succ] at h
      simp [List.set, ih n a h]

/-! ### lookup / `replaceCell` lemmas -/

lemma lookup_none (s : String) : ∀ m : List (String × String),
    (∀ p ∈ m, s ≠ p.1) → m.lookup s = none := by
  intro m
  induction m with
  | nil => intro _; rfl
  | cons p ps ih =>
    intro h
    obtain ⟨k, val⟩ := p
    have hk : (s == k) = false :=
      beq_eq_false_iff_ne.mpr (h (k, val) (by simp))
    simp only [List.lookup, hk]
    exact ih (fun q hq => h q (by simp [hq]))

lemma lookup_mem (s : String) (w : String) : ∀ m : List (String × String),
    m.lookup s = some w → (s, w) ∈ m := by
  intro m
  induction m with
  | nil => intro h; cases h
  | cons p ps ih =>
    intro h
    obtain ⟨k, val⟩ := p
    rw [List.lookup] at h
    cases hsk : (s == k) with
    | true =>
      rw [hsk] at h; dsimp only at h; cases h
      obtain rfl := eq_of_beq hsk
      simp
    | false =>
      rw [hsk] at h; dsimp only at h
      exact List.mem_cons_of_mem _ (ih h)

lemma replaceCell_id (m : List (String × String)) (v : Value)
    (h : ∀ p ∈ m, v ≠ .str p.1) : replaceCell m v = v := by
  cases v with
  | null => rfl
  | num q => rfl
  | str s =>
    rw [replaceCell, lookup_none s m (fun p hp e => h p hp (by rw [e]))]
    rfl

lemma replaceCell_idem (m : List (String × String))
    (hm : ∀ p ∈ m, ∀ q ∈ m, p.2 ≠ q.1) (v : Value) :
    replaceCell m (replaceCell m v) = replaceCell m v := by
  cases v with
  | null => rfl
  | num q => rfl
  | str s =>
    have hrc : replaceCell m (.str s) = .str ((m.lookup s).getD s) := rfl
    cases hl : m.lookup s with
    | none =>
      rw [hl, Option.getD_none] at hrc
      rw [hrc]
      exact hrc
    | some w =>
      rw [hl, Option.getD_some] at hrc
      rw [hrc]
      refine replaceCell_id m (.str w) (fun p hp e => ?_)
      injection e with e2
      exact hm (s, w) (lookup_mem s w m hl) p hp e2

/-! ### `toFloats` lemmas -/

lemma toFloats_elim : ∀ {vs : List Value} {qs : List (Option ℚ)},
    toFloats vs = some qs →
    qs.length = vs.length ∧
    ∀ (k : Nat) (v : Value), vs[k]? = some v →
      ∃ q, qs[k]? = some q ∧ v.toFloat = some q := by
  intro vs
  induction vs with
  | nil =>
    intro qs h; cases h
    exact ⟨rfl, fun k v hk => by simp at hk⟩
  | cons v vs ih =>
    intro qs h
    rw [toFloats] at h
    cases hv : v.toFloat with
    | none =>
      rw [hv] at h
      cases hvs : toFloats vs with
      | none => rw [hvs] at h; dsimp only at h; cases h
      | some qs2 => rw [hvs] at h; dsimp only at h; cases h
    | some q =>
      rw [hv] at h
      cases hvs : toFloats vs with
      | none => rw [hvs] at h; dsimp only at h; cases h
      | some qs2 =>
        rw [hvs] at h; dsimp only at h; cases h
        obtain ⟨hlen, hcell⟩ := ih hvs
        refine ⟨by simp [hlen], ?_⟩
        intro k v2 hk
        cases k with
        | zero =>
          simp at hk; subst hk
          exact ⟨q, by simp, hv⟩
        | succ n =>
          simp only [List.getElem?_cons_succ] at hk ⊢
          exact hcell n v2 hk

lemma toFloats_some : ∀ {vs : List Value},
    (∀ v ∈ vs, (Value.toFloat v).isSome) →
    ∃ qs, toFloats vs = some qs := by
  intro vs
  induction vs with
  | nil => intro _; exact ⟨[], rfl⟩
  | cons v vs ih =>
    intro h
    obtain ⟨q, hq⟩ := Option.isSome_iff_exists.mp (h v (by simp))
    obtain ⟨qs, hqs⟩ := ih (fun v2 hv2 => h v2 (by simp [hv2]))
    refine ⟨q :: qs, ?_⟩
    rw [toFloats, hq, hqs]

/-! ### `fill_with_mean` lemmas -/

lemma fill_elim {t t2 : Table} {c : String}
    (h : fill_with_mean t c = some t2) :
    ∃ (i : Nat) (floats : List (Option ℚ)), colIdx c t.header = some i ∧
      toFloats (colValues i t.rows) = some floats ∧
      t2 = ⟨t.header,
        setColumn i t.rows (floats.map (fillCell (meanOf floats)))⟩ := by
  rw [fill_with_mean] at h
  cases hc : colIdx c t.header with
  | none => rw [hc] at h; dsimp only at h; cases h
  | some i =>
    rw [hc] at h; dsimp only at h
    cases hf : toFloats (colValues i t.rows) with
    | none => rw [hf] at h; dsimp only at h; cases h
    | some floats =>
      rw [hf] at h; dsimp only at h; cases h
      exact ⟨i, floats, rfl, hf, rfl⟩

lemma fill_intro (t : Table) (c : String) (i : Nat)
    (floats : List (Option ℚ)) (hc : colIdx c t.header = some i)
    (hf : toFloats (colValues i t.rows) = some floats) :
    fill_with_mean t c =
      some ⟨t.header,
        setColumn i t.rows (floats.map (fillCell (meanOf floats)))⟩ := by
  rw [fill_with_mean, hc]
  dsimp only
  rw [hf]

lemma colValues_get (i : Nat) (rows : List (List Value)) (k : Nat) :
    (colValues i rows)[k]? =
      (rows[k]?).map (fun r => (r[i]?).getD Value.null) := by
  rw [colValues, getq_map]

lemma colValues_length (i : Nat) (rows : List (List Value)) :
    (colValues i rows).length = rows.length := by
  rw [colValues, List.length_map]

lemma setColumn_cell {i : Nat} {rows : List (List Value)}
    {vals : List Value} (hlen : vals.length = rows.length) (k : Nat)
    (r : List Value) (hk : rows[k]? = some r) :
    ∃ w, vals[k]? = some w ∧
      (setColumn i rows vals)[k]? = some (r.set i w) := by
  have hklt : k < rows.length := ltLengthOfGet _ _ _ hk
  obtain ⟨w, hw⟩ := getqSomeOfLt vals k (by rw [hlen]; exact hklt)
  exact ⟨w, hw, zipWith_get _ rows vals k r w hk hw⟩

lemma fill_cell_eq {t : Table} {i : Nat} {floats : List (Option ℚ)}
    (hf : toFloats (colValues i t.rows) = some floats) (mean : Option ℚ)
    (k : Nat) (v : Value) (hv : cell t k i = some v) :
    ∃ q, Value.toFloat v = some q ∧
      cell ⟨t.header, setColumn i t.rows (floats.map (fillCell mean))⟩ k i
        = some (fillCell mean q) := by
  rw [cell] at hv
  cases hk : t.rows[k]? with
  | none => rw [hk] at hv; cases hv
  | some r =>
    rw [hk] at hv
    simp only [Option.bind] at hv
    have hcv : (colValues i t.rows)[k]? = some v := by
      rw [colValues_get, hk]
      simp [hv]
    obtain ⟨hlen, hcells⟩ := toFloats_elim hf
    obtain ⟨q, hq, hqf⟩ := hcells k v hcv
    have hmaplen : (floats.map (fillCell mean)).length = t.rows.length := by
      rw [List.length_map, hlen, colValues_length]
    obtain ⟨w, hw, hset⟩ := setColumn_cell hmaplen k r hk
    rw [getq_map, hq] at hw
    simp only [Option.map] at hw
    cases hw
    refine ⟨q, hqf, ?_⟩
    rw [cell, hset]
    simp only [Option.bind]
    rw [getq_set]
    simp [ltLengthOfGet r i v hv]

lemma fill_cell_rev {t : Table} {i : Nat} {floats : List (Option ℚ)}
    (mean : Option ℚ) (k : Nat) (w : Value)
    (hw : cell ⟨t.header,
      setColumn i t.rows (floats.map (fillCell mean))⟩ k i = some w) :
    ∃ q, w = fillCell mean q := by
  rw [cell] at hw
  cases hk2 : (setColumn i t.rows (floats.map (fillCell mean)))[k]? with
  | none => rw [hk2] at hw; cases hw
  | some r2 =>
    rw [hk2] at hw
    simp only [Option.bind] at hw
    obtain ⟨r, fv, hk, hfv, rfl⟩ :=
      zipWith_get_rev _ t.rows (floats.map (fillCell mean)) k r2 hk2
    rw [getq_set] at hw
    by_cases hi : i < r.length
    · rw [if_pos ⟨rfl, hi⟩] at hw
      cases hw
      rw [getq_map] at hfv
      cases hq : floats[k]? with
      | none => rw [hq] at hfv; cases hfv
      | some q =>
        rw [hq] at hfv
        simp only [Option.map] at hfv
        cases hfv
        exact ⟨q, rfl⟩
    · rw [if_neg (fun hp => hi hp.2)] at hw
      exact absurd (ltLengthOfGet r i w hw) hi

lemma fill_frame {t t2 : Table} {c : String}
    (h : fill_with_mean t c = some t2) :
    t2.header = t.header ∧ t2.rows.length = t.rows.length ∧
    ∀ j : Nat, t.header[j]? ≠ some c →
      ∀ k : Nat, cell t2 k j = cell t k j := by
  obtain ⟨i, floats, hc, hf, rfl⟩ := fill_elim h
  obtain ⟨hlen, _⟩ := toFloats_elim hf
  have hmaplen :
      (floats.map (fillCell (meanOf floats))).length = t.rows.length := by
    rw [List.length_map, hlen, colValues_length]
  have hslen :
      (setColumn i t.rows (floats.map (fillCell (meanOf floats)))).length
        = t.rows.length := by
    rw [setColumn, List.length_zipWith, hmaplen, Nat.min_self]
  refine ⟨rfl, hslen, ?_⟩
  intro j hj k
  have hji : j ≠ i := fun e => hj (e ▸ colIdx_get c t.header i hc)
  rw [cell, cell]
  cases hk : t.rows[k]? with
  | none =>
    have hle : t.rows.length ≤ k := by
      by_contra hx
      obtain ⟨a, ha⟩ := getqSomeOfLt t.rows k (Nat.lt_of_not_le hx)
      rw [ha] at hk; cases hk
    have h2 :
        (setColumn i t.rows (floats.map (fillCell (meanOf floats))))[k]?
          = none := getqNoneOfLe _ _ (by rw [hslen]; exact hle)
    dsimp only
    rw [h2]
  | some r =>
    obtain ⟨w, hw, hset⟩ := setColumn_cell hmaplen k r hk
    dsimp only
    rw [hset]
    simp only [Option.bind]
    rw [getq_set]
    simp [hji]

/-! ### `genderCell` lemmas -/

lemma genderCell_str (s : String) (ch : Char) (rest : List Char)
    (hl : s.toList = ch :: rest) :
    genderCell (.str s) =
      some (.str (if ch.toUpper = 'M' ∨ ch.toUpper = 'F'
        then ch.toUpper.toString else "D")) := by
  rw [genderCell, hl]

lemma genderCell_isSome (v : Value) (hv : v.genderSafe = true) :
    (genderCell v).isSome := by
  cases v with
  | null => rfl
  | num q => simp [Value.genderSafe] at hv
  | str s =>
    rw [Value.genderSafe] at hv
    cases hl : s.toList with
    | nil => rw [hl] at hv; simp at hv
    | cons ch rest => rw [genderCell_str s ch rest hl]; rfl

lemma genderCell_idem :
    ∀ v w, genderCell v = some w → genderCell w = some w := by
  intro v w h
  cases v with
  | null =>
    rw [genderCell] at h
    cases h
    decide
  | num q => cases h
  | str s =>
    cases hl : s.toList with
    | nil => rw [genderCell, hl] at h; cases h
    | cons ch rest =>
      rw [genderCell_str s ch rest hl] at h
      cases h
      by_cases hch : ch.toUpper = 'M' ∨ ch.toUpper = 'F'
      · rw [if_pos hch]
        rcases hch with h1 | h1 <;> rw [h1] <;> decide
      · rw [if_neg hch]
        decide

/-! ### all-null column lemmas -/

lemma toFloats_all_null (i : Nat) : ∀ rows : List (List Value),
    (∀ r ∈ rows, (r[i]?).getD Value.null = Value.null) →
    toFloats (colValues i rows) =
      some (rows.map (fun _ => none)) := by
  intro rows
  induction rows with
  | nil => intro _; rfl
  | cons r rs ih =>
    intro h
    have hr : (r[i]?).getD Value.null = Value.null := h r (by simp)
    have hcv : colValues i (r :: rs) = Value.null :: colValues i rs := by
      rw [colValues, List.map_cons, hr]
      rfl
    have ih2 := ih (fun r2 hr2 => h r2 (by simp [hr2]))
    rw [hcv, toFloats, show Value.toFloat Value.null = some none from rfl,
      ih2]
    simp

lemma filterMap_id_nones : ∀ l : List α,
    ((l.map (fun _ => (none : Option ℚ))).filterMap id) = [] := by
  intro l
  induction l with
  | nil => rfl
  | cons x xs ih => simp [ih]

lemma meanOf_nones (l : List α) : meanOf (l.map (fun _ => none)) = none := by
  rw [meanOf, filterMap_id_nones]
  rfl

lemma setColumn_nulls (i : Nat) : ∀ rows : List (List Value),
    (∀ r ∈ rows, (r[i]?).getD Value.null = Value.null) →
    setColumn i rows (rows.map (fun _ => Value.null)) = rows := by
  intro rows
  induction rows with
  | nil => intro _; rfl
  | cons r rs ih =>
    intro h
    have hr := h r (by simp)
    rw [List.map_cons, setColumn, List.zipWith_cons_cons]
    have h1 : r.set i Value.null = r := by
      cases hri : r[i]? with
      | none => exact set_oob r i _ hri
      | some v =>
        rw [hri] at hr
        simp only [Option.getD_some] at hr
        subst hr
        exact set_self r i _ hri
    have h2 := ih (fun r2 hh => h r2 (by simp [hh]))
    rw [setColumn] at h2
    rw [h1, h2]

/-! ### Claim theorems -/

/-- C10: the Pipeline Runner's second parameter is ignored: for any two
column arguments, `clean_dataframe` returns the same result, so the
output depends only on the input table. -/
theorem C10_runner_ignores_column (df : Table) (c1 c2 : String) :
    clean_dataframe df c1 = clean_dataframe df c2 := rfl

/-- C4: `clean_dataframe` equals the sequential composition, in exactly
the order Column Name Normalizer → Null-Row Dropper → Gender Cleaner →
State Cleaner → Education Cleaner → Lifetime Value Cleaner → Complaints
Splitter → Mean Imputer, each with its default column (`pipelineSpec`);
on a concrete run the Vehicle Class Cleaner is not applied (the output
still holds `Sports Car`, and applying the cleaner would change it to
`Luxury`) and the Numeric Coercion step is not applied (running it on
the output would fail, not succeed). -/
theorem C4_pipeline_is_composition :
    (∀ (df : Table) (c : String), clean_dataframe df c = pipelineSpec df) ∧
    (clean_dataframe exPipeline "anything" = some exPipelineOut ∧
      cell exPipelineOut 0 5 = some (.str "Sports Car") ∧
      (∃ t3, clean_car_class exPipelineOut "vehicle_class" = some t3 ∧
        cell t3 0 5 = some (.str "Luxury")) ∧
      num_to_int exPipelineOut = none) := by
  constructor
  · intro df c
    rw [clean_dataframe, pipelineSpec]
    cases clean_gender (drop_null_rows (clean_col_name df)) "gender" with
    | none => rfl
    | some a =>
      dsimp only [Option.bind]
      cases clean_state a "state" with
      | none => rfl
      | some b =>
        dsimp only [Option.bind]
        cases clean_education b "education" with
        | none => rfl
        | some d =>
          dsimp only [Option.bind]
          cases clean_clv d "customer_lifetime_value" with
          | none => rfl
          | some e =>
            dsimp only [Option.bind]
            cases split_keep_middle e "number_of_open_complaints" with
            | none => rfl
            | some g => rfl
  · refine ⟨by decide, by decide,
      ⟨⟨["gender", "state", "education", "customer_lifetime_value",
          "number_of_open_complaints", "vehicle_class"],
        [[.str "F", .str "Arizona", .str "Bachelor", .num 10, .str "2",
          .str "Luxury"]]⟩, by decide, by decide⟩, by decide⟩

/-- C8: every per-column cleaner fails (raises `KeyError`, modelled as
`none`) on a table that does not contain the named target column. -/
theorem C8_column_not_found (t : Table) (c : String) (h : c ∉ t.header) :
    clean_gender t c = none ∧ clean_state t c = none ∧
    clean_education t c = none ∧ clean_car_class t c = none ∧
    clean_clv t c = none ∧ split_keep_middle t c = none ∧
    fill_with_mean t c = none := by
  have hc : colIdx c t.header = none := (colIdx_none_iff c t.header).mpr h
  refine ⟨applyCol_none h, applyCol_none h, applyCol_none h,
    applyCol_none h, applyCol_none h, ?_, ?_⟩
  · rw [split_keep_middle, hc]
  · rw [fill_with_mean, hc]

/-- Witness for C8 at a concrete table without the requested column. -/
theorem C8_column_not_found_witness :
    ("zz" ∉ (Table.mk ["a"] []).header) ∧
      clean_gender ⟨["a"], []⟩ "zz" = none ∧
      fill_with_mean ⟨["a"], []⟩ "zz" = none := by
  refine ⟨by decide, ?_, ?_⟩
  · exact (C8_column_not_found ⟨["a"], []⟩ "zz" (by decide)).1
  · exact (C8_column_not_found ⟨["a"], []⟩ "zz" (by decide)).2.2.2.2.2.2

/-- C3 counterexample: on a table whose target column is entirely null,
`fill_with_mean` does not fail — `Series.mean()` of an all-null column
is `NaN` and `fillna(NaN)` leaves the nulls in place — so the claimed
`ConversionError`/`EmptyColumnError` is never raised: the call returns
the table unchanged, nulls included. -/
theorem C3_counterexample :
    fill_with_mean exAllNull "customer_lifetime_value" = some exAllNull ∧
      cell exAllNull 0 0 = some Value.null := by decide

/-- C3 amended: on a table whose target column exists but contains zero
non-null values, `fill_with_mean` succeeds and returns the table
unchanged (the nulls are still there); it does not raise an error. -/
theorem C3_all_null_column_kept (t : Table) (c : String) (i : Nat)
    (hc : colIdx c t.header = some i)
    (hnull : ∀ r ∈ t.rows, (r[i]?).getD Value.null = Value.null) :
    fill_with_mean t c = some t := by
  have hf := toFloats_all_null i t.rows hnull
  rw [fill_intro t c i (t.rows.map (fun _ => none)) hc hf, meanOf_nones]
  have h2 : (t.rows.map (fun _ => (none : Option ℚ))).map (fillCell none)
      = t.rows.map (fun _ => Value.null) := by
    rw [List.map_map]
    rfl
  rw [h2, setColumn_nulls i t.rows hnull]

/-- Witness for the amended C3 at a concrete all-null table. -/
theorem C3_all_null_witness :
    fill_with_mean exAllNull "customer_lifetime_value" = some exAllNull :=
  C3_all_null_column_kept exAllNull "customer_lifetime_value" 0
    (by decide) (by decide)

/-- C5 counterexample: the claim promises a null output cell for an
already-null value on every table containing the column, but on a
column holding a number and a null (no text), the `.str` accessor
raises `AttributeError` before any cell is processed, so no table is
returned at all. -/
theorem C5_counterexample :
    ("number_of_open_complaints" ∈ exNumSplit.header) ∧
      split_keep_middle exNumSplit "number_of_open_complaints"
        = none := by decide

/-- C5 amended: on every table containing the target column that the
`.str` accessor accepts — all cells null, or at least one text cell —
the Complaints Splitter succeeds; a text cell whose `/`-split has a
second segment (index 1) is replaced by that segment, a text cell with
fewer than two segments (e.g. no `/` at all) becomes null, and an
already-null cell stays null.  (On a column whose non-null cells are
all numeric the accessor raises instead, as `C5_counterexample`
shows.) -/
theorem C5_split_keep_middle (t : Table) (c : String) (i : Nat)
    (hc : colIdx c t.header = some i)
    (hok : ((colValues i t.rows).all Value.isNull
        || (colValues i t.rows).any Value.isText) = true) :
    ∃ t2, split_keep_middle t c = some t2 ∧
      (∀ (k : Nat) (s seg : String), cell t k i = some (.str s) →
        (splitSlash s.toList)[1]? = some seg →
        cell t2 k i = some (.str seg)) ∧
      (∀ (k : Nat) (s : String), cell t k i = some (.str s) →
        (splitSlash s.toList).length < 2 →
        cell t2 k i = some Value.null) ∧
      (∀ k : Nat, cell t k i = some Value.null →
        cell t2 k i = some Value.null) := by
  obtain ⟨t2, ht2⟩ := @applyCol_some splitCell c t i hc
    (fun r hr v hv => by cases v <;> rfl)
  have hsplit : split_keep_middle t c = some t2 := by
    rw [split_keep_middle, hc]
    dsimp only
    rw [if_pos hok]
    exact ht2
  refine ⟨t2, hsplit, ?_, ?_, ?_⟩
  · intro k s seg hv hseg
    obtain ⟨w, hfw, hcell⟩ := applyCol_cellTarget ht2 hc k _ hv
    rw [splitCell, hseg] at hfw
    cases hfw
    exact hcell
  · intro k s hv hlen
    obtain ⟨w, hfw, hcell⟩ := applyCol_cellTarget ht2 hc k _ hv
    rw [splitCell,
      getqNoneOfLe (splitSlash s.toList) 1 (Nat.le_of_lt_succ hlen)] at hfw
    cases hfw
    exact hcell
  · intro k hv
    obtain ⟨w, hfw, hcell⟩ := applyCol_cellTarget ht2 hc k _ hv
    rw [splitCell] at hfw
    cases hfw
    exact hcell

/-- Witness for C5 at a concrete table, including the spec's examples
`"1/5/00" → "5"` and `"3/10/05" → "10"`. -/
theorem C5_split_witness :
    ∃ t2, split_keep_middle exSplit "number_of_open_complaints" = some t2 ∧
      cell t2 0 0 = some (.str "5") ∧ cell t2 1 0 = some (.str "10") ∧
      cell t2 2 0 = some Value.null ∧ cell t2 3 0 = some Value.null := by
  obtain ⟨t2, h1, h2, h3, h4⟩ :=
    C5_split_keep_middle exSplit "number_of_open_complaints" 0
      (by decide) (by decide)
  exact ⟨t2, h1, h2 0 "1/5/00" "5" (by decide) (by decide),
    h2 1 "3/10/05" "10" (by decide) (by decide),
    h3 2 "7" (by decide) (by decide), h4 3 (by decide)⟩

/-- C7: on every table whose target column holds only null or text
values, the Lifetime Value Cleaner succeeds; every text cell loses all
its `%` characters, nulls pass through unchanged, and every output cell
is still text or null (no numeric conversion happens here). -/
theorem C7_clean_clv (t : Table) (c : String) (i : Nat)
    (hc : colIdx c t.header = some i)
    (hcells : ∀ r ∈ t.rows, ∀ v : Value, r[i]? = some v →
      v.isNull = true ∨ v.isText = true) :
    ∃ t2, clean_clv t c = some t2 ∧
      (∀ (k : Nat) (s : String), cell t k i = some (.str s) →
        cell t2 k i = some (.str (stripPercent s))) ∧
      (∀ k : Nat, cell t k i = some Value.null →
        cell t2 k i = some Value.null) ∧
      (∀ (k : Nat) (w : Value), cell t2 k i = some w →
        w = Value.null ∨ ∃ s, w = Value.str s) := by
  obtain ⟨t2, ht2⟩ := @applyCol_some clvCell c t i hc (fun r hr v hv => by
    cases v with
    | null => rfl
    | str s => rfl
    | num q =>
      rcases hcells r hr _ hv with h2 | h2 <;>
        simp [Value.isNull, Value.isText] at h2)
  refine ⟨t2, ht2, ?_, ?_, ?_⟩
  · intro k s hv
    obtain ⟨w, hfw, hcell⟩ := applyCol_cellTarget ht2 hc k _ hv
    rw [clvCell] at hfw
    cases hfw
    exact hcell
  · intro k hv
    obtain ⟨w, hfw, hcell⟩ := applyCol_cellTarget ht2 hc k _ hv
    rw [clvCell] at hfw
    cases hfw
    exact hcell
  · intro k w hw
    obtain ⟨v, hv, hfv⟩ := applyCol_cellTarget_rev ht2 hc k w hw
    cases v with
    | null => rw [clvCell] at hfv; cases hfv; exact Or.inl rfl
    | str s => rw [clvCell] at hfv; cases hfv; exact Or.inr ⟨_, rfl⟩
    | num q => rw [clvCell] at hfv; cases hfv

/-- Witness for C7 at a concrete table: `"15.5%"` becomes the string
`"15.5"` and the null stays null. -/
theorem C7_clv_witness :
    ∃ t2, clean_clv exClv "customer_lifetime_value" = some t2 ∧
      cell t2 0 0 = some (.str "15.5") ∧ cell t2 1 0 = some Value.null := by
  obtain ⟨t2, h1, h2, h3, _⟩ :=
    C7_clean_clv exClv "customer_lifetime_value" 0 (by decide) (by decide)
  have h4 := h2 0 "15.5%" (by decide)
  rw [(by decide : stripPercent "15.5%" = "15.5")] at h4
  exact ⟨t2, h1, h4, h3 1 (by decide)⟩

lemma replace_identity {m : List (String × String)} {t t2 : Table}
    {c : String} {i k : Nat} {v : Value}
    (h : applyCol (fun v => some (replaceCell m v)) c t = some t2)
    (hc : colIdx c t.header = some i) (hv : cell t k i = some v)
    (hid : replaceCell m v = v) : cell t2 k i = some v := by
  obtain ⟨w, hw, hcell⟩ := applyCol_cellTarget h hc k v hv
  cases hw
  rw [hid] at hcell
  exact hcell

lemma replace_step_idem (m : List (String × String))
    (hm : ∀ p ∈ m, ∀ q ∈ m, p.2 ≠ q.1) {t t2 : Table} {c : String}
    (h : applyCol (fun v => some (replaceCell m v)) c t = some t2) :
    applyCol (fun v => some (replaceCell m v)) c t2 = some t2 :=
  applyCol_idem (fun v w hw => by
    cases hw
    exact congrArg some (replaceCell_idem m hm v)) h

/-- C6: the State, Education and Vehicle-Class Cleaners act as the
identity on every cell not equal to a key of their fixed mapping
(State: AZ/Cali/WA; Education: Bachelors; Vehicle Class: Sports
Car/Luxury SUV/Luxury Car), nulls included; and all four categorical
cleaners (those three and the Gender Cleaner) are idempotent: applying
a cleaner to its own output returns that output unchanged. -/
theorem C6_cleaners_idempotent_identity :
    (∀ (t t2 : Table) (c : String) (i k : Nat) (v : Value),
      clean_state t c = some t2 → colIdx c t.header = some i →
      cell t k i = some v →
      v ∉ [Value.str "AZ", Value.str "Cali", Value.str "WA"] →
      cell t2 k i = some v) ∧
    (∀ (t t2 : Table) (c : String) (i k : Nat) (v : Value),
      clean_education t c = some t2 → colIdx c t.header = some i →
      cell t k i = some v → v ≠ Value.str "Bachelors" →
      cell t2 k i = some v) ∧
    (∀ (t t2 : Table) (c : String) (i k : Nat) (v : Value),
      clean_car_class t c = some t2 → colIdx c t.header = some i →
      cell t k i = some v →
      v ∉ [Value.str "Sports Car", Value.str "Luxury SUV",
        Value.str "Luxury Car"] →
      cell t2 k i = some v) ∧
    (∀ (t t2 : Table) (c : String),
      clean_state t c = some t2 → clean_state t2 c = some t2) ∧
    (∀ (t t2 : Table) (c : String),
      clean_education t c = some t2 → clean_education t2 c = some t2) ∧
    (∀ (t t2 : Table) (c : String),
      clean_car_class t c = some t2 → clean_car_class t2 c = some t2) ∧
    (∀ (t t2 : Table) (c : String),
      clean_gender t c = some t2 → clean_gender t2 c = some t2) := by
  refine ⟨?_, ?_, ?_, ?_, ?_, ?_, ?_⟩
  · intro t t2 c i k v h hc hv hnot
    refine replace_identity h hc hv (replaceCell_id _ v ?_)
    intro p hp
    rw [state_dict] at hp
    simp only [List.mem_cons, List.not_mem_nil, or_false] at hp
    simp only [List.mem_cons, List.not_mem_nil, or_false, not_or] at hnot
    rcases hp with rfl | rfl | rfl
    · exact hnot.1
    · exact hnot.2.1
    · exact hnot.2.2
  · intro t t2 c i k v h hc hv hnot
    refine replace_identity h hc hv (replaceCell_id _ v ?_)
    intro p hp
    simp only [List.mem_cons, List.not_mem_nil, or_false] at hp
    subst hp
    exact hnot
  · intro t t2 c i k v h hc hv hnot
    refine replace_identity h hc hv (replaceCell_id _ v ?_)
    intro p hp
    rw [car_classes_dict] at hp
    simp only [List.mem_cons, List.not_mem_nil, or_false] at hp
    simp only [List.mem_cons, List.not_mem_nil, or_false, not_or] at hnot
    rcases hp with rfl | rfl | rfl
    · exact hnot.1
    · exact hnot.2.1
    · exact hnot.2.2
  · intro t t2 c h
    exact replace_step_idem state_dict (by decide) h
  · intro t t2 c h
    exact replace_step_idem [("Bachelors", "Bachelor")] (by decide) h
  · intro t t2 c h
    exact replace_step_idem car_classes_dict (by decide) h
  · intro t t2 c h
    exact applyCol_idem genderCell_idem h

/-- Witness for C6 at concrete tables: the state cleaner keeps an
unmapped value (`Oregon`) and a null unchanged and is idempotent there;
the gender cleaner is idempotent on a cleaned table. -/
theorem C6_witness :
    ∃ t2, clean_state exState "state" = some t2 ∧
      cell t2 0 0 = some (.str "Oregon") ∧
      cell t2 1 0 = some Value.null ∧
      clean_state t2 "state" = some t2 ∧
      clean_gender ⟨["gender"], [[.str "D"]]⟩ "gender"
        = some ⟨["gender"], [[.str "D"]]⟩ := by
  have h := C6_cleaners_idempotent_identity
  have hs : clean_state exState "state" = some exState := by decide
  refine ⟨exState, hs,
    h.1 exState exState "state" 0 0 _ hs (by decide) (by decide) (by decide),
    h.1 exState exState "state" 0 1 _ hs (by decide) (by decide) (by decide),
    h.2.2.2.1 exState exState "state" hs,
    h.2.2.2.2.2.2 ⟨["gender"], [[.str "D"]]⟩ ⟨["gender"], [[.str "D"]]⟩
      "gender" (by decide)⟩

lemma applyCol_frame_all {f : Value → Option Value} {c : String}
    {t t2 : Table} (h : applyCol f c t = some t2) :
    t2.header = t.header ∧ t2.rows.length = t.rows.length ∧
    ∀ j : Nat, t.header[j]? ≠ some c →
      ∀ k : Nat, cell t2 k j = cell t k j :=
  ⟨applyCol_header h, applyCol_rowcount h,
    fun j hj k => applyCol_frame h j hj k⟩

/-- C9: every per-column cleaner is a pure transformation of its target
column only — on success the output table has the same column names in
the same order, the same number of rows, and every cell in a column
whose name differs from the target is identical to the input cell.
(Non-mutation of the caller's table is inherent in the embedding: each
source function copies its input with `df.copy()` before writing.) -/
theorem C9_frame_other_columns :
    (∀ (t t2 : Table) (c : String), clean_gender t c = some t2 →
      t2.header = t.header ∧ t2.rows.length = t.rows.length ∧
      ∀ j : Nat, t.header[j]? ≠ some c →
        ∀ k : Nat, cell t2 k j = cell t k j) ∧
    (∀ (t t2 : Table) (c : String), clean_state t c = some t2 →
      t2.header = t.header ∧ t2.rows.length = t.rows.length ∧
      ∀ j : Nat, t.header[j]? ≠ some c →
        ∀ k : Nat, cell t2 k j = cell t k j) ∧
    (∀ (t t2 : Table) (c : String), clean_education t c = some t2 →
      t2.header = t.header ∧ t2.rows.length = t.rows.length ∧
      ∀ j : Nat, t.header[j]? ≠ some c →
        ∀ k : Nat, cell t2 k j = cell t k j) ∧
    (∀ (t t2 : Table) (c : String), clean_car_class t c = some t2 →
      t2.header = t.header ∧ t2.rows.length = t.rows.length ∧
      ∀ j : Nat, t.header[j]? ≠ some c →
        ∀ k : Nat, cell t2 k j = cell t k j) ∧
    (∀ (t t2 : Table) (c : String), clean_clv t c = some t2 →
      t2.header = t.header ∧ t2.rows.length = t.rows.length ∧
      ∀ j : Nat, t.header[j]? ≠ some c →
        ∀ k : Nat, cell t2 k j = cell t k j) ∧
    (∀ (t t2 : Table) (c : String), split_keep_middle t c = some t2 →
      t2.header = t.header ∧ t2.rows.length = t.rows.length ∧
      ∀ j : Nat, t.header[j]? ≠ some c →
        ∀ k : Nat, cell t2 k j = cell t k j) ∧
    (∀ (t t2 : Table) (c : String), fill_with_mean t c = some t2 →
      t2.header = t.header ∧ t2.rows.length = t.rows.length ∧
      ∀ j : Nat, t.header[j]? ≠ some c →
        ∀ k : Nat, cell t2 k j = cell t k j) :=
  ⟨fun _ _ _ h => applyCol_frame_all h,
   fun _ _ _ h => applyCol_frame_all h,
   fun _ _ _ h => applyCol_frame_all h,
   fun _ _ _ h => applyCol_frame_all h,
   fun _ _ _ h => applyCol_frame_all h,
   fun _ _ _ h => applyCol_frame_all (split_elim h),
   fun _ _ _ h => fill_frame h⟩

/-- Witness for C9: cleaning the education column of a two-column table
leaves the header, the row count and every cell of the `income` column
unchanged. -/
theorem C9_frame_witness :
    ∃ t2, clean_education exEdu "education" = some t2 ∧
      t2.header = exEdu.header ∧ t2.rows.length = exEdu.rows.length ∧
      cell t2 0 1 = cell exEdu 0 1 ∧ cell t2 1 1 = cell exEdu 1 1 := by
  have hstep : clean_education exEdu "education" =
      some ⟨["education", "income"],
        [[.str "Bachelor", .num 3], [.null, .str "x"]]⟩ := by decide
  obtain ⟨hh, hl, hcells⟩ :=
    (C9_frame_other_columns).2.2.1 exEdu _ "education" hstep
  exact ⟨_, hstep, hh, hl, hcells 1 (by decide) 0, hcells 1 (by decide) 1⟩

/-- C1 counterexample: on a table whose gender column holds the empty
string, the cleaner does not produce `"D"` — the lambda evaluates
`x[0]` on `""` and raises `IndexError`, so no output table exists at
all (`none`), refuting the claimed total `{M,F,D}` guarantee. -/
theorem C1_counterexample :
    ("gender" ∈ exEmptyGender.header) ∧
      clean_gender exEmptyGender "gender" = none := by decide

/-- C1 amended: on every table containing the target column whose cells
are each null or a nonempty string, `clean_gender` succeeds, and each
output cell is a string in `{M,F,D}`: the uppercased first character of
the input when that character is `M` or `F`, `"D"` otherwise, with null
mapped to `"D"`.  (Empty-string and non-text cells instead make the
step raise, as `C1_counterexample` shows.) -/
theorem C1_gender_amended (t : Table) (c : String) (i : Nat)
    (hc : colIdx c t.header = some i)
    (hcells : ∀ r ∈ t.rows, ∀ v : Value, r[i]? = some v →
      v.genderSafe = true) :
    ∃ t2, clean_gender t c = some t2 ∧
      ∀ (k : Nat) (v : Value), cell t k i = some v →
        ∃ w : String, cell t2 k i = some (Value.str w) ∧
          (w = "M" ∨ w = "F" ∨ w = "D") ∧
          (v = Value.null → w = "D") ∧
          (∀ (s : String) (ch : Char) (rest : List Char),
            v = Value.str s → s.toList = ch :: rest →
            ((ch.toUpper = 'M' ∨ ch.toUpper = 'F') →
              w = ch.toUpper.toString) ∧
            (¬(ch.toUpper = 'M' ∨ ch.toUpper = 'F') → w = "D")) := by
  obtain ⟨t2, ht2⟩ := @applyCol_some genderCell c t i hc
    (fun r hr v hv => genderCell_isSome v (hcells r hr v hv))
  refine ⟨t2, ht2, ?_⟩
  intro k v hv
  obtain ⟨w0, hfw, hcell⟩ := applyCol_cellTarget ht2 hc k v hv
  cases v with
  | null =>
    rw [genderCell] at hfw
    cases hfw
    exact ⟨"D", hcell, Or.inr (Or.inr rfl), fun _ => rfl,
      fun s ch rest heq => absurd heq (by simp)⟩
  | num q => rw [genderCell] at hfw; cases hfw
  | str s =>
    cases hl : s.toList with
    | nil => rw [genderCell, hl] at hfw; cases hfw
    | cons ch rest =>
      rw [genderCell_str s ch rest hl] at hfw
      cases hfw
      refine ⟨if ch.toUpper = 'M' ∨ ch.toUpper = 'F'
          then ch.toUpper.toString else "D", hcell, ?_,
        fun h => absurd h (by simp), ?_⟩
      · by_cases hch : ch.toUpper = 'M' ∨ ch.toUpper = 'F'
        · rw [if_pos hch]
          rcases hch with h1 | h1 <;> rw [h1]
          · exact Or.inl (by decide)
          · exact Or.inr (Or.inl (by decide))
        · rw [if_neg hch]
          exact Or.inr (Or.inr rfl)
      · intro s2 ch2 rest2 heq hl2
        injection heq with heq2
        subst heq2
        rw [hl] at hl2
        injection hl2 with e1 e2
        subst e1
        constructor
        · intro hch
          rw [if_pos hch]
        · intro hch
          rw [if_neg hch]

/-- Witness for the amended C1: `"female"` becomes `"F"`, null becomes
`"D"`, and `"Male"` becomes `"M"`. -/
theorem C1_gender_witness :
    ∃ t2, clean_gender exGender "gender" = some t2 ∧
      cell t2 0 0 = some (.str "F") ∧ cell t2 1 0 = some (.str "D") ∧
      cell t2 2 0 = some (.str "M") := by
  obtain ⟨t2, h1, h2⟩ :=
    C1_gender_amended exGender "gender" 0 (by decide) (by decide)
  obtain ⟨w0, hc0, _, _, hs0⟩ := h2 0 _
    (show cell exGender 0 0 = some (.str "female") from by decide)
  have hw0 := (hs0 "female" 'f' "emale".toList rfl (by decide)).1 (by decide)
  obtain ⟨w1, hc1, _, hn1, _⟩ := h2 1 _
    (show cell exGender 1 0 = some Value.null from by decide)
  have hw1 := hn1 rfl
  obtain ⟨w2, hc2, _, _, hs2⟩ := h2 2 _
    (show cell exGender 2 0 = some (.str "Male") from by decide)
  have hw2 := (hs2 "Male" 'M' "ale".toList rfl (by decide)).1 (by decide)
  subst hw0
  subst hw1
  subst hw2
  rw [(by decide : Char.toString 'f'.toUpper = "F")] at hc0
  rw [(by decide : Char.toString 'M'.toUpper = "M")] at hc2
  exact ⟨t2, h1, hc0, hc1, hc2⟩

/-- C2: on every table whose target column values all coerce to float
(null or numeric text) with at least one non-null among them,
`fill_with_mean` succeeds, the output column has no null cell, every
originally non-null value appears unchanged as its float value, and
every originally null cell now holds the arithmetic mean of the
pre-imputation non-null values. -/
theorem C2_fill_with_mean (t : Table) (c : String) (i : Nat)
    (floats : List (Option ℚ)) (hc : colIdx c t.header = some i)
    (hf : toFloats (colValues i t.rows) = some floats)
    (hnn : (floats.filterMap id).length ≠ 0) :
    ∃ t2, fill_with_mean t c = some t2 ∧
      (∀ (k : Nat) (w : Value), cell t2 k i = some w → w ≠ Value.null) ∧
      (∀ (k : Nat) (v : Value) (q : ℚ), cell t k i = some v →
        Value.toFloat v = some (some q) →
        cell t2 k i = some (Value.num q)) ∧
      (∀ k : Nat, cell t k i = some Value.null →
        cell t2 k i = some (Value.num ((floats.filterMap id).sum /
          ((floats.filterMap id).length : ℚ)))) := by
  have hmean : meanOf floats = some ((floats.filterMap id).sum /
      ((floats.filterMap id).length : ℚ)) := by
    simp only [meanOf]
    rw [if_neg hnn]
  refine ⟨_, fill_intro t c i floats hc hf, ?_, ?_, ?_⟩
  · intro k w hw
    obtain ⟨q, hq⟩ := fill_cell_rev (meanOf floats) k w hw
    rw [hmean] at hq
    subst hq
    cases q <;> simp [fillCell]
  · intro k v q hv hvf
    obtain ⟨q2, hq2, hcell⟩ := fill_cell_eq hf (meanOf floats) k v hv
    rw [hvf] at hq2
    cases hq2
    exact hcell
  · intro k hv
    obtain ⟨q2, hq2, hcell⟩ := fill_cell_eq hf (meanOf floats) k _ hv
    rw [show Value.toFloat Value.null = some none from rfl] at hq2
    cases hq2
    rw [hcell, hmean]
    rfl

/-- Witness for C2: the column `["10", null, 20]` is imputed to
`[10, 15, 20]` — the null becomes the mean 15, the others keep their
float values. -/
theorem C2_fill_witness :
    ∃ t2, fill_with_mean exMean "customer_lifetime_value" = some t2 ∧
      cell t2 0 0 = some (.num 10) ∧ cell t2 1 0 = some (.num 15) ∧
      cell t2 2 0 = some (.num 20) := by
  obtain ⟨t2, h1, _, h3, h4⟩ := C2_fill_with_mean exMean
    "customer_lifetime_value" 0 [some 10, none, some 20]
    (by decide) (by decide) (by decide)
  have h5 := h4 1 (by decide)
  rw [(by decide : (([some (10:ℚ), none, some 20].filterMap id).sum /
    (([some (10:ℚ), none, some 20].filterMap id).length : ℚ)) = (15:ℚ))]
    at h5
  exact ⟨t2, h1, h3 0 (.str "10") 10 (by decide) (by decide), h5,
    h3 2 (.num 20) 20 (by decide) (by decide)⟩

end DataClean
